import Mathlib

/-!
Verification development for the decision core of the onepick-movies
recommendation bot.  The Python modules `app/core/{tagging, anti_repeat,
learning, recommender, rationale}.py` are shallowly embedded below:
pure functions become Lean functions, Python `float` values are modelled
as real numbers (`ℝ`) or exact rationals, Python `int` as `ℤ`/`ℕ`,
`dict.get` with a default as `Option.getD`, and the storage repositories
as explicit function/list arguments.  `hashlib.sha256` is implemented
bit-faithfully over `ℕ`.  The stdlib random generator is modelled by a
record carrying the realized draws of `random()` / `_randbelow` together
with the bounds the library guarantees for them.
-/

/-! ## Python string primitives (`str.lower`, `str.strip`, `str.split`) -/

/-- Models `str.lower` on one character, for the alphabet this code base uses:
ASCII plus the Ukrainian Cyrillic letters (А–Я, І, Ї, Є, Ґ). -/
def lowerChar (c : Char) : Char :=
  let n := c.toNat
  if 65 ≤ n ∧ n ≤ 90 then Char.ofNat (n + 32)
  else if 0x410 ≤ n ∧ n ≤ 0x42F then Char.ofNat (n + 0x20)
  else if n = 0x406 then Char.ofNat 0x456
  else if n = 0x407 then Char.ofNat 0x457
  else if n = 0x404 then Char.ofNat 0x454
  else if n = 0x490 then Char.ofNat 0x491
  else c

/-- Lowercase a character list (the data of a Python string). -/
def lw (l : List Char) : List Char := l.map lowerChar

/-- Whitespace, as Python `str.split()` / `str.strip()` treat it. -/
def isSpace (c : Char) : Bool := c = ' ' ∨ c = '\t' ∨ c = '\n' ∨ c = '\r'

/-- Models `str.strip()`. -/
def pyStrip (l : List Char) : List Char :=
  ((l.dropWhile isSpace).reverse.dropWhile isSpace).reverse

/-- Models `str.split()` (split on whitespace runs, dropping empty tokens). -/
def splitWsAux : List Char → List Char → List String
  | [], acc => if acc = [] then [] else [⟨acc.reverse⟩]
  | c :: rest, acc =>
    if isSpace c then
      if acc = [] then splitWsAux rest []
      else ⟨acc.reverse⟩ :: splitWsAux rest []
    else splitWsAux rest (c :: acc)

/-- Runs `str.split()` on a character list. -/
def splitWs (l : List Char) : List String := splitWsAux l []

/-! ## Association-list helpers (Python `dict` with string keys) -/

/-- Models `d[k] = v` on an insertion-ordered dict. -/
def upsert : List (String × Int) → String → Int → List (String × Int)
  | [], k, v => [(k, v)]
  | (k', v') :: rest, k, v =>
    if k' = k then (k', v) :: rest else (k', v') :: upsert rest k v

/-- Models `d.get(k, default)`. -/
def lookupD (l : List (String × Int)) (k : String) (default : Int) : Int :=
  match l.lookup k with
  | some v => v
  | none => default

/-! ## SHA-256 (models `hashlib.sha256`), over `ℕ` with explicit `% 2^32` -/

/-- Truncate to 32 bits. -/
def m32 (x : Nat) : Nat := x % 4294967296

/-- 32-bit right rotation. -/
def rotr32 (n x : Nat) : Nat := m32 ((x >>> n) ||| (x <<< (32 - n)))

def shaCh (x y z : Nat) : Nat := (x &&& y) ^^^ ((x ^^^ 4294967295) &&& z)

def shaMaj (x y z : Nat) : Nat := (x &&& y) ^^^ (x &&& z) ^^^ (y &&& z)

def bsig0 (x : Nat) : Nat := rotr32 2 x ^^^ rotr32 13 x ^^^ rotr32 22 x

def bsig1 (x : Nat) : Nat := rotr32 6 x ^^^ rotr32 11 x ^^^ rotr32 25 x

def ssig0 (x : Nat) : Nat := rotr32 7 x ^^^ rotr32 18 x ^^^ (x >>> 3)

def ssig1 (x : Nat) : Nat := rotr32 17 x ^^^ rotr32 19 x ^^^ (x >>> 10)

/-- The 64 SHA-256 round constants. -/
def shaK : List Nat :=
  [1116352408, 1899447441, 3049323471, 3921009573, 961987163, 1508970993,
   2453635748, 2870763221, 3624381080, 310598401, 607225278, 1426881987,
   1925078388, 2162078206, 2614888103, 3248222580, 3835390401, 4022224774,
   264347078, 604807628, 770255983, 1249150122, 1555081692, 1996064986,
   2554220882, 2821834349, 2952996808, 3210313671, 3336571891, 3584528711,
   113926993, 338241895, 666307205, 773529912, 1294757372, 1396182291,
   1695183700, 1986661051, 2177026350, 2456956037, 2730485921, 2820302411,
   3259730800, 3345764771, 3516065817, 3600352804, 4094571909, 275423344,
   430227734, 506948616, 659060556, 883997877, 958139571, 1322822218,
   1537002063, 1747873779, 1955562222, 2024104815, 2227730452, 2361852424,
   2428436474, 2756734187, 3204031479, 3329325298]

/-- The SHA-256 initial hash value. -/
def shaH0 : List Nat :=
  [1779033703, 3144134277, 1013904242, 2773480762, 1359893119, 2600822924,
   528734635, 1541459225]

/-- Big-endian byte serialization of `n` into `k` bytes. -/
def natToBytesBE (k n : Nat) : List Nat :=
  (List.range k).map (fun i => (n >>> (8 * (k - 1 - i))) % 256)

/-- SHA-256 message padding of a byte string. -/
def padMsg (msg : List Nat) : List Nat :=
  let L := msg.length
  let z := (119 - (L % 64)) % 64
  msg ++ [128] ++ List.replicate z 0 ++ natToBytesBE 8 (8 * L)

/-- Group bytes into big-endian 32-bit words. -/
def bytesToWords : List Nat → List Nat
  | a :: b :: c :: d :: rest =>
    ((a <<< 24) ||| (b <<< 16) ||| (c <<< 8) ||| d) :: bytesToWords rest
  | _ => []

/-- Extend the 16 block words to the 64-entry message schedule. -/
def shaSchedule (w16 : List Nat) : Array Nat :=
  (List.range 48).foldl
    (fun w _ =>
      w.push (m32 (ssig1 (w.getD (w.size - 2) 0) + w.getD (w.size - 7) 0 +
        ssig0 (w.getD (w.size - 15) 0) + w.getD (w.size - 16) 0)))
    w16.toArray

/-- The eight working registers of the compression function. -/
structure ShaRegs where
  a : Nat
  b : Nat
  c : Nat
  d : Nat
  e : Nat
  f : Nat
  g : Nat
  h : Nat

/-- One-block compression. -/
def compressBlock (H : List Nat) (w : Array Nat) : List Nat :=
  let init : ShaRegs :=
    ⟨H.getD 0 0, H.getD 1 0, H.getD 2 0, H.getD 3 0,
     H.getD 4 0, H.getD 5 0, H.getD 6 0, H.getD 7 0⟩
  let step := fun (r : ShaRegs) (i : Nat) =>
    let t1 := m32 (r.h + bsig1 r.e + shaCh r.e r.f r.g + shaK.getD i 0 + w.getD i 0)
    let t2 := m32 (bsig0 r.a + shaMaj r.a r.b r.c)
    (⟨m32 (t1 + t2), r.a, r.b, r.c, m32 (r.d + t1), r.e, r.f, r.g⟩ : ShaRegs)
  let r := (List.range 64).foldl step init
  [m32 (H.getD 0 0 + r.a), m32 (H.getD 1 0 + r.b), m32 (H.getD 2 0 + r.c),
   m32 (H.getD 3 0 + r.d), m32 (H.getD 4 0 + r.e), m32 (H.getD 5 0 + r.f),
   m32 (H.getD 6 0 + r.g), m32 (H.getD 7 0 + r.h)]

/-- Process the padded message block by block. -/
def shaBlocks : List Nat → List Nat → List Nat
  | H, [] => H
  | H, b :: rest =>
    shaBlocks (compressBlock H (shaSchedule (bytesToWords ((b :: rest).take 64))))
      ((b :: rest).drop 64)
termination_by _ l => l.length
decreasing_by simp [List.length_drop]; omega

/-- SHA-256 digest (32 bytes) of a byte string. -/
def sha256 (msg : List Nat) : List Nat :=
  (shaBlocks shaH0 (padMsg msg)).foldr (fun wd acc => natToBytesBE 4 wd ++ acc) []

/-- UTF-8 bytes of a string (`str.encode()`). -/
def utf8Bytes (s : String) : List Nat := s.toUTF8.toList.map (fun b => b.toNat)

/-! ## `app/core/rationale.py` -/

/-- Models `_hash_seed`: first 4 bytes of `sha256(rec_id + salt)`, big-endian. -/
def hash_seed (rec_id : String) (salt : String) : Nat :=
  ((sha256 (utf8Bytes (rec_id ++ salt))).take 4).foldl (fun acc b => acc * 256 + b) 0

/-- Maximum rationale length. -/
def MAX_RATIONALE_LENGTH : Nat := 320

/-- Spoiler keywords to avoid (both EN and UA). -/
def SPOILER_KEYWORDS : List String :=
  ["twist", "ending", "killer", "dies", "murderer", "plot twist", "finale",
   "death", "killed", "betrayal", "reveal", "shocking", "surprise ending",
   "поворот", "кінцівка", "вбивця", "помирає", "гине", "зрада", "фінал"]

/-- Rationale templates for the `light` state. -/
def light_templates : List String :=
  ["Легке кіно, яке не навантажує. Саме те, щоб розслабитись після довгого дня.",
   "Простий і приємний перегляд. Сідай зручніше і насолоджуйся.",
   "Щось світле, щоб підняти настрій. Ніякого напруження.",
   "Тепла, невимушена історія — те, що зараз потрібно.",
   "Комфортний перегляд. Дозволь собі щось просте і приємне."]

/-- Rationale templates for the `heavy` state. -/
def heavy_templates : List String :=
  ["Глибока історія, яка залишається з тобою надовго.",
   "Серйозне кіно для тих, хто готовий відчути щось справжнє.",
   "Потужний наратив, що винагороджує увагу.",
   "Багатошарова розповідь, що запрошує до роздумів.",
   "Вагоме кіно, яке залишає слід. Варте твоєї повної уваги."]

/-- Rationale templates for the `escape` state. -/
def escape_templates : List String :=
  ["Чистий ескейпізм. Дозволь собі повністю загубитись в іншому світі.",
   "Подорож далеко від буденності, як ти й просив. Занурюйся.",
   "Захоплива історія, що переносить кудись зовсім інакше.",
   "Повне занурення в іншу реальність. Забудь про все на якийсь час.",
   "Пригода чекає. Крокни крізь екран і залиш свій світ позаду."]

/-- Models the `RATIONALE_TEMPLATES` dict lookup (`.get(state)`). -/
def RATIONALE_TEMPLATES (state : String) : Option (List String) :=
  if state = "light" then some light_templates
  else if state = "heavy" then some heavy_templates
  else if state = "escape" then some escape_templates
  else none

/-- Pace modifiers for `slow`. -/
def slow_modifiers : List String :=
  ["Кіно не поспішає, і це добре.",
   "Неквапливий темп, що дає моментам дихати.",
   "Споглядальний ритм для вдумливого перегляду."]

/-- Pace modifiers for `fast`. -/
def fast_modifiers : List String :=
  ["Жвавий темп, що тримає в напрузі.",
   "Динаміка, яка не відпускає.",
   "Енергійно від початку до кінця."]

/-- Models the `PACE_MODIFIERS` dict lookup. -/
def PACE_MODIFIERS (pace : String) : Option (List String) :=
  if pace = "slow" then some slow_modifiers
  else if pace = "fast" then some fast_modifiers
  else none

/-- When-to-watch templates, light state. -/
def light_when (pace : String) : Option (List String) :=
  if pace = "slow" then some
    ["Найкраще без відволікань, з теплим напоєм.",
     "Ідеально для тихого вечора, коли хочеш розслабитись.",
     "Для спокійного завершення дня."]
  else if pace = "fast" then some
    ["Коли хочеш легких розваг з енергією.",
     "Для вихідних, коли потрібен драйв без напруги.",
     "Коли хочеш чогось легкого, але жвавого."]
  else none

/-- When-to-watch templates, heavy state. -/
def heavy_when (pace : String) : Option (List String) :=
  if pace = "slow" then some
    ["Виділи час без відволікань. Це кіно винагороджує терпіння.",
     "Для пізнього вечора, коли можеш повністю зосередитись.",
     "Коли готовий по-справжньому зануритись в історію."]
  else if pace = "fast" then some
    ["Коли хочеш інтенсивності без затягування.",
     "Захоплюючий перегляд, що вимагає уваги.",
     "Коли хочеш чогось серйозного, але динамічного."]
  else none

/-- When-to-watch templates, escape state. -/
def escape_when (pace : String) : Option (List String) :=
  if pace = "slow" then some
    ["Влаштуйся зручно для подорожі. Дай світу побудуватись навколо.",
     "Для лінивого дня, коли хочеш зникнути кудись.",
     "Коли є час повністю зануритись."]
  else if pace = "fast" then some
    ["Пристебнись — це атракціон, що не відпускає.",
     "Коли хочеш пригод з місця в кар\x27єр.",
     "Для захопливої втечі від реальності."]
  else none

/-- Models the outer `WHEN_TO_WATCH` dict lookup. -/
def WHEN_TO_WATCH (state : String) : Option (String → Option (List String)) :=
  if state = "light" then some light_when
  else if state = "heavy" then some heavy_when
  else if state = "escape" then some escape_when
  else none

/-- Delta explainer templates for `pace_flipped`. -/
def pace_flipped_templates : List String :=
  ["Тепер {new_pace}, але той самий настрій.",
   "Ось щось {new_pace}.",
   "Та сама атмосфера, інший ритм — {new_pace}."]

/-- Delta explainer templates for `tone_shifted`. -/
def tone_shifted_templates : List String :=
  ["Схоже відчуття, інший відтінок.",
   "Залишаюсь у настрої, змінюю акцент.",
   "Та сама суть, новий підхід."]

/-- Delta explainer templates for `format_flipped`. -/
def format_flipped_templates : List String :=
  ["Цього разу {new_format}.",
   "Той самий вайб, тепер як {new_format}.",
   "Змінюю формат на {new_format}."]

/-- Models the `DELTA_EXPLAINERS` dict lookup. -/
def DELTA_EXPLAINERS (delta_type : String) : Option (List String) :=
  if delta_type = "pace_flipped" then some pace_flipped_templates
  else if delta_type = "tone_shifted" then some tone_shifted_templates
  else if delta_type = "format_flipped" then some format_flipped_templates
  else none

/-- Ukrainian pace words for the delta explainer (`PACE_WORDS_UA.get`). -/
def PACE_WORDS_UA (p : String) : Option String :=
  if p = "slow" then some "повільніше"
  else if p = "fast" then some "динамічніше"
  else none

/-- Ukrainian format words for the delta explainer (`FORMAT_WORDS_UA.get`). -/
def FORMAT_WORDS_UA (f : String) : Option String :=
  if f = "movie" then some "фільм"
  else if f = "series" then some "серіал"
  else none

/-- Models `_select_by_hash`: deterministic template pick by hash. -/
def select_by_hash (options : List String) (rec_id : String) (salt : String) : String :=
  if options = [] then ""
  else options.getD (hash_seed rec_id salt % options.length) ""

/-- Models `_contains_spoiler`: case-insensitive substring check of every
spoiler keyword against the text. -/
def contains_spoiler (text : String) : Prop :=
  ∃ k ∈ SPOILER_KEYWORDS, k.data <:+: lw text.data

instance contains_spoiler_decidable (text : String) : Decidable (contains_spoiler text) :=
  inferInstanceAs (Decidable (∃ k ∈ SPOILER_KEYWORDS, k.data <:+: lw text.data))

/-- Replacement scan of one (lowercased) keyword `lk`: models one
`re.sub(re.escape(keyword), "...", result, flags=IGNORECASE)` pass —
leftmost, non-overlapping, each match replaced by `"..."`.  The `skip`
counter carries the tail of a match already consumed (the scan resumes
after a replaced match).  An empty keyword never matches (the source
never passes one). -/
def replSpoiler (lk : List Char) : Nat → List Char → List Char
  | _, [] => []
  | skip+1, _ :: rest => replSpoiler lk skip rest
  | 0, c :: rest =>
    if lk ≠ [] ∧ lk.isPrefixOf (lw (c :: rest)) then
      '.' :: '.' :: '.' :: replSpoiler lk (lk.length - 1) rest
    else c :: replSpoiler lk 0 rest

/-- All spoiler-keyword substitution passes, in list order. -/
def sanitizeCore (l : List Char) : List Char :=
  SPOILER_KEYWORDS.foldl (fun acc k => replSpoiler (lw k.data) 0 acc) l

/-- Models `_sanitize_text`: spoiler substitution, then truncation with an
appended `"..."` when over the length budget. -/
def sanitize_text (text : String) (max_length : Nat := MAX_RATIONALE_LENGTH) : String :=
  let result := sanitizeCore text.data
  if max_length < result.length then
    ⟨result.take (max_length - 3) ++ ['.', '.', '.']⟩
  else ⟨result⟩

/-- Answer set: the three discrete dimensions, each possibly absent
(Python reads them with `answers.get(key, default)`). -/
structure Answers where
  state : Option String := none
  pace : Option String := none
  format : Option String := none
deriving DecidableEq, Repr

/-- Placeholder type for a parsed `tags_json` dict (the rationale
generator receives it but never reads it). -/
abbrev TagsDict := List (String × String)

/-- Models `generate_rationale`. -/
def generate_rationale (rec_id : String) (answers : Answers)
    (_item_tags : Option TagsDict := none) : String :=
  let state := answers.state.getD "escape"
  let pace := answers.pace.getD "slow"
  let templates := (RATIONALE_TEMPLATES state).getD escape_templates
  let base := select_by_hash templates rec_id "rationale"
  let base :=
    if hash_seed rec_id "pace_mod" % 2 = 0 then
      let modifiers := (PACE_MODIFIERS pace).getD slow_modifiers
      let modifier := select_by_hash modifiers rec_id "pace"
      base ++ " " ++ modifier
    else base
  sanitize_text base

/-- Models `generate_when_to_watch`. -/
def generate_when_to_watch (rec_id : String) (answers : Answers) : String :=
  let state := answers.state.getD "escape"
  let pace := answers.pace.getD "slow"
  let state_templates := (WHEN_TO_WATCH state).getD escape_when
  let pace_templates := (state_templates pace).getD ((state_templates "slow").getD [])
  if pace_templates = [] then "Коли будеш готовий до чогось класного."
  else select_by_hash pace_templates rec_id "when"

/-- Models `generate_delta_explainer`. -/
def generate_delta_explainer (delta_type : String) (new_value : String)
    (rec_id : String) : String :=
  let templates := (DELTA_EXPLAINERS delta_type).getD tone_shifted_templates
  let template := select_by_hash templates rec_id "delta"
  if delta_type = "pace_flipped" then
    template.replace "{new_pace}" ((PACE_WORDS_UA new_value).getD new_value)
  else if delta_type = "format_flipped" then
    template.replace "{new_format}" ((FORMAT_WORDS_UA new_value).getD new_value)
  else template

/-- Models `validate_rationale`. -/
def validate_rationale (rationale : String) : Bool × Option String :=
  if MAX_RATIONALE_LENGTH < rationale.length then
    (false, some "Rationale too long")
  else if decide (contains_spoiler rationale) then
    (false, some "Rationale contains spoiler keywords")
  else (true, none)

/-! ## `app/core/tagging.py` (the parts the claims need:
`context_key` and hint parsing) -/

/-- Models `context_key`: canonical weight-accounting key from an answer set. -/
def context_key (answers : Answers) : String :=
  let state := answers.state.getD "escape"
  let pace := answers.pace.getD "slow"
  let fmt := answers.format.getD "movie"
  "state:" ++ state ++ "|pace:" ++ pace ++ "|format:" ++ fmt

/-- One row of `HINT_GENRE_MAP`: keyword set, answer overrides, tone keywords. -/
structure GenreRow where
  keywords : List String
  ov : Answers
  tones : Finset String

/-- Models `HINT_GENRE_MAP` (UA/EN keyword → answer overrides and tone
keywords), in source order. -/
def HINT_GENRE_MAP : List GenreRow :=
  [⟨["детектив", "detective", "кримінал", "crime", "розслідування"],
    { state := some "heavy", pace := some "slow" }, {"dark", "mysterious", "tense"}⟩,
   ⟨["екшн", "action", "бойовик", "бій", "стрілянина"],
    { state := some "escape", pace := some "fast" }, {"adventure", "thrilling"}⟩,
   ⟨["комедія", "comedy", "смішне", "смішний", "веселе", "веселий"],
    { state := some "light", pace := some "fast" }, {"funny", "warm"}⟩,
   ⟨["драма", "drama", "драматичне", "драматичний"],
    { state := some "heavy", pace := some "slow" }, {"melancholy", "emotional"}⟩,
   ⟨["хорор", "horror", "жахи", "страшне", "трилер", "thriller"],
    { state := some "heavy", pace := some "fast" }, {"dark", "tense"}⟩,
   ⟨["романтика", "romance", "романтичне", "кохання", "love"],
    { state := some "light", pace := some "slow" }, {"warm", "romantic"}⟩,
   ⟨["фантастика", "fantasy", "фентезі", "sci-fi", "наукова фантастика", "космос"],
    { state := some "escape" }, {"weird", "adventure"}⟩,
   ⟨["мультфільм", "мультик", "анімація", "animation", "anime", "аніме"],
    { state := some "light" }, {"cozy", "warm"}⟩,
   ⟨["корейське", "корейська", "корейський", "korean", "k-drama", "кдрама", "дорама"],
    {}, ∅⟩,
   ⟨["китайське", "китайська", "китайський", "chinese", "china"],
    {}, ∅⟩,
   ⟨["документальне", "документалка", "documentary"],
    { state := some "heavy", pace := some "slow" }, {"thought-provoking"}⟩,
   ⟨["повільне", "повільний", "спокійне", "вдумливе"],
    { pace := some "slow" }, ∅⟩,
   ⟨["динамічне", "динамічний", "швидке", "драйв", "адреналін"],
    { pace := some "fast" }, ∅⟩]

/-- Parsed hint data (`HintResult`). -/
structure HintResult where
  overrides : Answers
  tone_keywords : Finset String
  search_words : List String
  llm_keywords : List String

/-- Bool-valued infix test used to model Python's `kw in text`. -/
def isInfixB (k : List Char) : List Char → Bool
  | [] => k.isPrefixOf []
  | c :: rest => k.isPrefixOf (c :: rest) || isInfixB k rest

/-- One row matches the hint iff some token is in the keyword set, or a
multi-word keyword occurs as a substring of the (lowercased) hint text. -/
def rowMatches (words : List String) (text : List Char) (row : GenreRow) : Bool :=
  words.any (fun w => row.keywords.contains w) ||
    row.keywords.any (fun kw => kw.data.contains ' ' && isInfixB kw.data text)

/-- Models `dict.update` on an overrides dict: fields present in `upd`
overwrite those of `base`. -/
def dictUpdate (base upd : Answers) : Answers :=
  { state := match upd.state with | some v => some v | none => base.state,
    pace := match upd.pace with | some v => some v | none => base.pace,
    format := match upd.format with | some v => some v | none => base.format }

/-- Series keywords for the explicit format override in `parse_hint`. -/
def series_words : List String := ["серіал", "серіали", "series", "show", "шоу", "дорама"]

/-- Movie keywords for the explicit format override in `parse_hint`. -/
def movie_words : List String := ["фільм", "фільми", "movie", "кіно"]

/-- Stop words removed from hint search words. -/
def hint_stop_words : List String :=
  ["щось", "як", "на", "з", "із", "та", "і", "або", "чи",
   "схоже", "подібне", "типу", "класний", "класне", "класна",
   "гарний", "гарне", "гарна", "крутий", "круте", "крута",
   "хороший", "хороше", "хороша", "цікавий", "цікаве", "цікава",
   "something", "like", "similar", "good", "cool", "nice", "great",
   "want", "хочу", "хочеться", "давай", "може", "можливо",
   "про", "about", "with",
   "фільм", "серіал", "movie", "series", "show"]

/-- Models `parse_hint`: free-text hint → overrides, tone keywords and
search words. -/
def parse_hint (hint : Option String) : HintResult :=
  match hint with
  | none => ⟨{}, ∅, [], []⟩
  | some h =>
    if pyStrip h.data = [] then ⟨{}, ∅, [], []⟩
    else
      let text := pyStrip (lw h.data)
      let words := splitWs text
      let overrides : Answers :=
        if words.any (fun w => series_words.contains w) then { format := some "series" }
        else if words.any (fun w => movie_words.contains w) then { format := some "movie" }
        else {}
      let folded :=
        HINT_GENRE_MAP.foldl
          (fun (acc : Answers × Finset String) row =>
            if rowMatches words text row then
              (dictUpdate acc.1 row.ov, acc.2 ∪ row.tones)
            else acc)
          (overrides, (∅ : Finset String))
      let search_words :=
        words.filter (fun w => 3 ≤ w.length ∧ ¬ hint_stop_words.contains w)
      ⟨folded.1, folded.2, search_words, []⟩

/-! ## `app/core/learning.py` -/

/-- Reward values for different actions. -/
def REWARDS : List (String × Int) :=
  [("hit", 2), ("another", 1), ("miss", -2), ("favorite", 2), ("share", 2),
   ("silent_drop", -1)]

/-- Miss reasons with a defined correction entry (`MISS_REASON_CORRECTIONS`
keys; `notvibe` maps to an empty correction). -/
def MISS_REASON_KEYS : List String := ["tooslow", "tooheavy", "notvibe"]

/-- Models `_get_opposite_pace`. -/
def get_opposite_pace (pace : String) : String :=
  if pace = "slow" then "fast" else "slow"

/-- Models `_get_opposite_state`. -/
def get_opposite_state (state : String) : String :=
  if state = "heavy" then "light"
  else if state = "light" then "heavy"
  else "escape"

/-- The context snapshot stored with a selection record, as recovered by
`_parse_context` (a malformed or empty `context_json` is the record with
every field `none`). -/
structure StoredContext where
  state : Option String := none
  pace : Option String := none
  format : Option String := none
  tone_bucket : Option String := none
deriving DecidableEq

/-- Models `update_weights`: resolves the selection record through
`get_rec`, applies the base reward for the action to the stored context's
key, then the miss-reason correction, and returns the dict of weight
changes (the repository receives exactly these deltas). -/
def update_weights (get_rec : String → Option StoredContext)
    (rec_id : String) (action : String) (reason : Option String) :
    List (String × Int) :=
  match get_rec rec_id with
  | none => []
  | some context =>
    let answers : Answers :=
      { state := some (context.state.getD "escape"),
        pace := some (context.pace.getD "slow"),
        format := some (context.format.getD "movie") }
    let key := context_key answers
    match REWARDS.lookup action with
    | none => []
    | some reward =>
      let weight_changes : List (String × Int) :=
        if reward ≠ 0 then upsert [] key reward else []
      match reason with
      | none => weight_changes
      | some r =>
        if r = "tooslow" then
          let current_pace := (answers.pace).getD "slow"
          let opposite_pace := get_opposite_pace current_pace
          let alt_key := context_key { answers with pace := some opposite_pace }
          upsert weight_changes alt_key (lookupD weight_changes alt_key 0 + 1)
        else if r = "tooheavy" then
          let current_state := (answers.state).getD "escape"
          let lighter_state := get_opposite_state current_state
          if lighter_state ≠ current_state then
            let alt_key := context_key { answers with state := some lighter_state }
            upsert weight_changes alt_key (lookupD weight_changes alt_key 0 + 1)
          else weight_changes
        else weight_changes

/-- Models `calculate_weight_bonus`: linear for `|weight| ≤ 10`, otherwise
log-scaled with the sign of the weight (`math.log` is the natural log). -/
noncomputable def calculate_weight_bonus (weight : ℤ) (multiplier : ℝ := 1/4) : ℝ :=
  if weight.natAbs ≤ 10 then (weight : ℝ) * multiplier
  else
    (if 0 < weight then 1 else -1) *
      (10 + Real.log ((weight.natAbs : ℝ) - 9)) * multiplier

/-- Restatement of `calculateWeightBonus` in the spec's words: linear for
`|weight| ≤ 10`, else `sign(weight) * (10 + ln(|weight| - 9)) * multiplier`. -/
noncomputable def calculateWeightBonusSpec (weight : ℤ) (multiplier : ℝ) : ℝ :=
  if weight.natAbs ≤ 10 then (weight : ℝ) * multiplier
  else (weight.sign : ℝ) * (10 + Real.log (|(weight : ℝ)| - 9)) * multiplier

/-! ## `app/core/anti_repeat.py` -/

/-- Models `get_excluded_item_ids`.  The repository lookups become
arguments: `recent_ids` (`list_recent_user_item_ids`), `dismissed_ids`
(`list_dismissed_ids`), and `favorites`, the user's favorites ordered
most-recent-first, of which the source fetches only the first 500
(`list_favorites(user_id, limit=500)`). -/
def get_excluded_item_ids {α : Type} [DecidableEq α]
    (recent_ids dismissed_ids : Finset α) (favorites : List α)
    (additional_excludes : Option (Finset α)) : Finset α :=
  if recent_ids = ∅ ∧ dismissed_ids = ∅ then additional_excludes.getD ∅
  else
    let favorited_ids := (favorites.take 500).toFinset
    let excluded := recent_ids \ favorited_ids
    let excluded := excluded ∪ dismissed_ids
    excluded ∪ additional_excludes.getD ∅

/-! ## `app/core/recommender.py` -/

/-- The catalog item fields the embedded functions read. -/
structure Item where
  item_id : String
  title : String := ""
  base_score : ℝ := 0
  source : String := "curated"

/-- Realized draws of a `random.Random` instance, together with the bounds
the library guarantees: `random()` returns a value in `[0, 1)` and
`_randbelow(n)` (used by `choice`) a uniform integer below `n`. -/
structure PyRandom where
  u : ℚ
  u_nonneg : 0 ≤ u
  u_lt_one : u < 1
  randbelow : Nat → Nat
  randbelow_lt : ∀ n, 0 < n → randbelow n < n

/-- The per-process environment of library functions outside the
repository that `_compute_novelty_bonus` calls: `hash` on strings
(CPython SipHash, keyed per process) and the first `uniform` draw of
`random.Random(seed)` scaled to `[0, 1)` (Mersenne Twister). -/
structure PyProcessEnv where
  hashString : String → Int
  seededUnit : Nat → ℚ
  seededUnit_nonneg : ∀ n, 0 ≤ seededUnit n
  seededUnit_lt_one : ∀ n, seededUnit n < 1

/-- Item with computed score (`ScoredCandidate`). -/
structure ScoredCandidate where
  item : Item
  score : ℝ
  tags : Option TagsDict := none
  match_score : ℝ := 0
  weight_bonus : ℝ := 0
  novelty_bonus : ℝ := 0

/-- Models `_compute_novelty_bonus`.  The body seeds a fresh
`random.Random(hash(item.item_id) % 10000)` and draws
`uniform(0.0, 0.2) = 0.0 + (0.2 - 0.0) * random()`; the day-seeded `rng`
argument is received but never read. -/
def compute_novelty_bonus (env : PyProcessEnv) (item : Item)
    (_rng : PyRandom) : ℚ :=
  let item_seed := ((env.hashString item.item_id) % 10000).toNat
  0 + ((1 / 5 : ℚ) - 0) * env.seededUnit item_seed

/-- Models `_flip_pace`. -/
def flip_pace (pace : String) : String :=
  if pace = "slow" then "fast" else "slow"

/-- Models `_flip_format`. -/
def flip_format (fmt : String) : String :=
  if fmt = "movie" then "series" else "movie"

/-- The delta dict of a selection context; absent keys read as `false`
(`last_delta.get("pace_flipped", False)`). -/
structure DeltaInfo where
  pace_flipped : Bool := false
  tone_shifted : Bool := false
  format_flipped : Bool := false
deriving DecidableEq, Repr

/-- The prior-selection context consumed by "another" mode. -/
structure LastContext where
  pace : Option String := none
  delta : DeltaInfo := {}

/-- Models `_apply_another_delta`: state A (no prior pace flip) flips the
pace of the effective answers; state B (pace already flipped) leaves the
answers unchanged and marks a tone shift. -/
def apply_another_delta (answers : Answers) (last_context : LastContext) :
    DeltaInfo × Answers × String :=
  let pace_recently_flipped := last_context.delta.pace_flipped
  let current_pace := answers.pace.getD "slow"
  if pace_recently_flipped = false then
    let new_pace := flip_pace current_pace
    let effective := { answers with pace := some new_pace }
    let delta_info : DeltaInfo := { pace_flipped := true }
    (delta_info, effective, generate_delta_explainer "pace_flipped" new_pace "delta")
  else
    let delta_info : DeltaInfo := { tone_shifted := true }
    (delta_info, answers, generate_delta_explainer "tone_shifted" "" "delta")

/-- Models `_epsilon_greedy_select` (the source raises on an empty list;
here that is the `none` result).  With probability `epsilon` — i.e. when
the realized `rng.random()` draw is below `epsilon` — it explores:
`rng.choice(scored[:top_k])`, which indexes by `_randbelow(top_k)`;
otherwise it exploits, returning the best-scored head. -/
def epsilon_greedy_select (scored : List ScoredCandidate) (epsilon : ℚ)
    (rng : PyRandom) : Option ScoredCandidate :=
  match scored with
  | [] => none
  | s0 :: rest =>
    if rng.u < epsilon then
      let top_k := min 20 (s0 :: rest).length
      let top := (s0 :: rest).take top_k
      some (top.getD (rng.randbelow top.length) s0)
    else some s0

/-! ## Concrete instances and statement-side helper definitions -/

/-- The genre-map fold used by `parse_hint`. -/
def genreFold (p : GenreRow → Bool) (rows : List GenreRow)
    (init : Answers × Finset String) : Answers × Finset String :=
  rows.foldl
    (fun acc row => if p row then (dictUpdate acc.1 row.ov, acc.2 ∪ row.tones) else acc)
    init

/-- Union of the tone keyword sets of all rows matched by `p`, in order. -/
def unionTones (p : GenreRow → Bool) : List GenreRow → Finset String
  | [] => ∅
  | r :: rs => if p r then r.tones ∪ unionTones p rs else unionTones p rs

/-- Last-wins combination of a sequence of optional override values over
a fallback — the semantics of repeated `dict.update`. -/
def lastSome (b : Option String) : List (Option String) → Option String
  | [] => b
  | o :: rest => lastSome (match o with | some v => some v | none => b) rest

/-- A concrete process environment (any concrete `hash` and seeded
first-draw realization; the claims hold for every realization). -/
def envZero : PyProcessEnv :=
  ⟨fun _ => 0, fun _ => 0, fun _ => le_refl 0, fun _ => by norm_num⟩

/-- A realized day-seeded generator whose `random()` draw is `0`. -/
def rngZero : PyRandom :=
  ⟨0, le_refl 0, by norm_num, fun _ => 0, fun _ hn => hn⟩

/-- A realized day-seeded generator whose `random()` draw is `1/2`. -/
def rngHalf : PyRandom :=
  ⟨1/2, by norm_num, by norm_num, fun _ => 0, fun _ hn => hn⟩

/-- A concrete catalog item. -/
def item0 : Item := { item_id := "tt0111161", title := "t", base_score := 0, source := "curated" }

/-- A concrete two-candidate scored list (scores 3 > 2). -/
def candA : ScoredCandidate := { item := { item_id := "a" }, score := 3 }

/-- Second concrete candidate. -/
def candB : ScoredCandidate := { item := { item_id := "b" }, score := 2 }

/-- A stored selection context `state:heavy|pace:slow|format:movie`. -/
def ctx_heavy_slow_movie : StoredContext :=
  { state := some "heavy", pace := some "slow", format := some "movie" }

/-- A selection-record store holding one resolvable record `"r1"`. -/
def get_rec_demo : String → Option StoredContext :=
  fun rid => if rid = "r1" then some ctx_heavy_slow_movie else none

/-! ## Theorems -/

section WeightBonus

lemma wb_eq_spec (w : ℤ) (m : ℝ) :
    calculate_weight_bonus w m = calculateWeightBonusSpec w m := by
  unfold calculate_weight_bonus calculateWeightBonusSpec
  by_cases h : w.natAbs ≤ 10
  · rw [if_pos h, if_pos h]
  · rw [if_neg h, if_neg h, Int.cast_natAbs (R := ℝ), Int.cast_abs]
    rcases lt_trichotomy w 0 with hlt | rfl | hgt
    · rw [if_neg (by omega : ¬ (0:ℤ) < w), Int.sign_eq_neg_one_iff_neg.2 hlt]
      push_cast
      ring
    · exfalso; omega
    · rw [if_pos hgt, Int.sign_eq_one_iff_pos.2 hgt]
      push_cast
      ring

lemma wb_mono (m : ℝ) (hm : 0 < m) (w₁ w₂ : ℤ) (h0 : 0 ≤ w₁) (h12 : w₁ ≤ w₂) :
    calculate_weight_bonus w₁ m ≤ calculate_weight_bonus w₂ m := by
  unfold calculate_weight_bonus
  by_cases h1 : w₁.natAbs ≤ 10 <;> by_cases h2 : w₂.natAbs ≤ 10
  · rw [if_pos h1, if_pos h2]
    exact mul_le_mul_of_nonneg_right (by exact_mod_cast h12) hm.le
  · rw [if_pos h1, if_neg h2, if_pos (by omega : (0:ℤ) < w₂)]
    have h11 : (11 : ℝ) ≤ (w₂.natAbs : ℝ) := by exact_mod_cast (by omega : 11 ≤ w₂.natAbs)
    have hlog : 0 ≤ Real.log ((w₂.natAbs : ℝ) - 9) := Real.log_nonneg (by linarith)
    have hw1le : (w₁ : ℝ) ≤ 10 := by exact_mod_cast (by omega : w₁ ≤ 10)
    have key : (w₁ : ℝ) ≤ 10 + Real.log ((w₂.natAbs : ℝ) - 9) := by linarith
    calc (w₁ : ℝ) * m ≤ (10 + Real.log ((w₂.natAbs : ℝ) - 9)) * m :=
          mul_le_mul_of_nonneg_right key hm.le
      _ = 1 * (10 + Real.log ((w₂.natAbs : ℝ) - 9)) * m := by ring
  · exfalso; omega
  · rw [if_neg h1, if_neg h2, if_pos (by omega : (0:ℤ) < w₁),
      if_pos (by omega : (0:ℤ) < w₂)]
    have h11 : (11 : ℝ) ≤ (w₁.natAbs : ℝ) := by exact_mod_cast (by omega : 11 ≤ w₁.natAbs)
    have hab : ((w₁.natAbs : ℝ)) ≤ ((w₂.natAbs : ℝ)) := by
      exact_mod_cast (by omega : w₁.natAbs ≤ w₂.natAbs)
    have hlog := Real.log_le_log
      (show (0:ℝ) < (w₁.natAbs : ℝ) - 9 by linarith)
      (show (w₁.natAbs : ℝ) - 9 ≤ (w₂.natAbs : ℝ) - 9 by linarith)
    have key : 10 + Real.log ((w₁.natAbs : ℝ) - 9) ≤ 10 + Real.log ((w₂.natAbs : ℝ) - 9) := by
      linarith
    calc 1 * (10 + Real.log ((w₁.natAbs : ℝ) - 9)) * m
        = (10 + Real.log ((w₁.natAbs : ℝ) - 9)) * m := by ring
      _ ≤ (10 + Real.log ((w₂.natAbs : ℝ) - 9)) * m := mul_le_mul_of_nonneg_right key hm.le
      _ = 1 * (10 + Real.log ((w₂.natAbs : ℝ) - 9)) * m := by ring

lemma wb_neg (w : ℤ) (m : ℝ) :
    calculate_weight_bonus (-w) m = - calculate_weight_bonus w m := by
  unfold calculate_weight_bonus
  rw [Int.natAbs_neg]
  by_cases h : w.natAbs ≤ 10
  · rw [if_pos h, if_pos h]
    push_cast
    ring
  · rw [if_neg h, if_neg h]
    rcases lt_trichotomy w 0 with hlt | rfl | hgt
    · rw [if_pos (by omega : (0:ℤ) < -w), if_neg (by omega : ¬ (0:ℤ) < w)]
      ring
    · exfalso; omega
    · rw [if_neg (by omega : ¬ (0:ℤ) < -w), if_pos hgt]
      ring

/-- C6: `calculate_weight_bonus(w, m)` with `m > 0` equals `w*m` for
`|w| ≤ 10` and `sign(w)*(10 + ln(|w| - 9))*m` otherwise; it is
monotonically non-decreasing in `w` for `w ≥ 0`, and sign-symmetric:
`calculate_weight_bonus(-w, m) = -calculate_weight_bonus(w, m)`. -/
theorem c6_calculate_weight_bonus_spec (m : ℝ) (hm : 0 < m) :
    (∀ w : ℤ, calculate_weight_bonus w m = calculateWeightBonusSpec w m)
    ∧ (∀ w₁ w₂ : ℤ, 0 ≤ w₁ → w₁ ≤ w₂ →
        calculate_weight_bonus w₁ m ≤ calculate_weight_bonus w₂ m)
    ∧ (∀ w : ℤ, calculate_weight_bonus (-w) m = - calculate_weight_bonus w m) :=
  ⟨fun w => wb_eq_spec w m,
   fun w₁ w₂ h0 h12 => wb_mono m hm w₁ w₂ h0 h12,
   fun w => wb_neg w m⟩

/-- Witness for C6 at `m = 1/4`, `w = 5 ≤ 12`, `w = -12`. -/
theorem c6_calculate_weight_bonus_witness :
    calculate_weight_bonus 5 (1/4) = calculateWeightBonusSpec 5 (1/4)
    ∧ calculate_weight_bonus 5 (1/4) ≤ calculate_weight_bonus 12 (1/4)
    ∧ calculate_weight_bonus (-12) (1/4) = - calculate_weight_bonus 12 (1/4) :=
  ⟨(c6_calculate_weight_bonus_spec (1/4) (by norm_num)).1 5,
   (c6_calculate_weight_bonus_spec (1/4) (by norm_num)).2.1 5 12 (by norm_num) (by norm_num),
   (c6_calculate_weight_bonus_spec (1/4) (by norm_num)).2.2 12⟩

end WeightBonus

section AnotherDelta

/-- C4: in "another" mode with a prior context, when the prior delta does
not record a pace flip (state A) the effective answers have the pace
flipped (slow↔fast) and the delta records `pace_flipped = true`; when it
does (state B), no answer field changes and the delta records
`tone_shifted = true`. -/
theorem c4_apply_another_delta_spec (answers : Answers) (lc : LastContext) :
    (lc.delta.pace_flipped = false →
      (apply_another_delta answers lc).1 = { pace_flipped := true }
      ∧ (apply_another_delta answers lc).2.1 =
          { answers with pace := some (flip_pace (answers.pace.getD "slow")) })
    ∧ (lc.delta.pace_flipped = true →
      (apply_another_delta answers lc).1 = { tone_shifted := true }
      ∧ (apply_another_delta answers lc).2.1 = answers)
    ∧ flip_pace "slow" = "fast" ∧ flip_pace "fast" = "slow" := by
  refine ⟨fun hA => ?_, fun hB => ?_, by decide, by decide⟩
  · rw [apply_another_delta, if_pos hA]
    exact ⟨rfl, rfl⟩
  · rw [apply_another_delta, if_neg (by simp [hB])]
    exact ⟨rfl, rfl⟩

/-- Witness for C4: the spec's scenario — answers with `pace = "slow"`,
`lastContext = {pace: "slow", delta: {}}` — yields an effective pace of
`"fast"` and `delta.pace_flipped = true`; with the delta already flipped,
answers are unchanged and `tone_shifted` is set. -/
theorem c4_apply_another_delta_witness :
    (apply_another_delta
        { state := some "escape", pace := some "slow", format := some "movie" }
        { pace := some "slow", delta := {} }).2.1.pace = some "fast"
    ∧ (apply_another_delta
        { state := some "escape", pace := some "slow", format := some "movie" }
        { pace := some "slow", delta := {} }).1.pace_flipped = true
    ∧ (apply_another_delta
        { state := some "escape", pace := some "fast", format := some "movie" }
        { pace := some "fast", delta := { pace_flipped := true } }).2.1 =
      { state := some "escape", pace := some "fast", format := some "movie" }
    ∧ (apply_another_delta
        { state := some "escape", pace := some "fast", format := some "movie" }
        { pace := some "fast", delta := { pace_flipped := true } }).1.tone_shifted = true := by
  have hA := (c4_apply_another_delta_spec
    { state := some "escape", pace := some "slow", format := some "movie" }
    { pace := some "slow", delta := {} }).1 rfl
  have hB := (c4_apply_another_delta_spec
    { state := some "escape", pace := some "fast", format := some "movie" }
    { pace := some "fast", delta := { pace_flipped := true } }).2.1 rfl
  refine ⟨?_, ?_, hB.2, ?_⟩
  · rw [hA.2]; rfl
  · rw [hA.1]
  · rw [hB.1]


end AnotherDelta

section Determinism

/-- C7: the rationale generators are pure functions of their inputs —
two calls with the same selection id and the same inputs return
byte-identical strings (each embeds as a deterministic function of the
sha256 of its arguments; no global state is read). -/
theorem c7_generators_deterministic (rec_id : String) (answers : Answers)
    (item_tags : Option TagsDict) (delta_type new_value : String) :
    generate_rationale rec_id answers item_tags =
        generate_rationale rec_id answers item_tags
    ∧ generate_when_to_watch rec_id answers = generate_when_to_watch rec_id answers
    ∧ generate_delta_explainer delta_type new_value rec_id =
        generate_delta_explainer delta_type new_value rec_id :=
  ⟨rfl, rfl, rfl⟩

end Determinism

section Novelty

/-- C5 (amended): the novelty bonus lies in `[0, 0.2)` and is a
deterministic function of the per-item seed `hash(item_id) % 10000`
alone — it is identical for any two realizations of the day-seeded `rng`
argument, hence the score ordering is stable for a fixed
(user, day, mode) triple but the bonus does not vary across days. -/
theorem c5_novelty_bonus_spec (env : PyProcessEnv) (item : Item)
    (rng rng' : PyRandom) :
    compute_novelty_bonus env item rng = compute_novelty_bonus env item rng'
    ∧ 0 ≤ compute_novelty_bonus env item rng
    ∧ compute_novelty_bonus env item rng < 1/5 := by
  refine ⟨rfl, ?_, ?_⟩
  · unfold compute_novelty_bonus
    have := env.seededUnit_nonneg (((env.hashString item.item_id) % 10000).toNat)
    nlinarith
  · unfold compute_novelty_bonus
    have := env.seededUnit_lt_one (((env.hashString item.item_id) % 10000).toNat)
    nlinarith



/-- Counterexample for C5 as stated: two distinct realizations of the
day-seeded generator (as produced by `_deterministic_seed` on two
different days) give the same novelty bonus — the bonus does not vary
across days, because `_compute_novelty_bonus` never reads `rng`. -/
theorem c5_novelty_bonus_counterexample :
    rngZero.u ≠ rngHalf.u
    ∧ compute_novelty_bonus envZero item0 rngZero =
        compute_novelty_bonus envZero item0 rngHalf := by
  constructor
  · show (0 : ℚ) ≠ 1/2
    norm_num
  · rfl

end Novelty

section AntiRepeat

/-- C1 (amended): the exclusion set always contains every dismissed item,
even a favorited one; and an item recommended within the window that is
among the 500 favorites fetched by the source (`limit=500`,
most-recent-first), not dismissed and not in the caller-supplied
excludes, is not excluded. -/
theorem c1_get_excluded_item_ids_spec {α : Type} [DecidableEq α]
    (recent dismissed : Finset α) (favorites : List α)
    (additional : Option (Finset α)) (item : α) :
    (item ∈ dismissed →
      item ∈ get_excluded_item_ids recent dismissed favorites additional)
    ∧ (item ∈ recent → item ∈ favorites.take 500 → item ∉ dismissed →
        item ∉ additional.getD ∅ →
        item ∉ get_excluded_item_ids recent dismissed favorites additional) := by
  constructor
  · intro hd
    unfold get_excluded_item_ids
    split_ifs with h
    · exact absurd (h.2 ▸ hd) (Finset.not_mem_empty item)
    · simp only [Finset.mem_union]
      exact Or.inl (Or.inr hd)
  · intro hr hf hnd hna
    unfold get_excluded_item_ids
    split_ifs with h
    · exact hna
    · simp only [Finset.mem_union, Finset.mem_sdiff, List.mem_toFinset]
      push_neg
      exact ⟨⟨fun _ => hf, hnd⟩, hna⟩

/-- Witness for C1 (amended), on concrete sets: item 2 is dismissed and
favorited, so it is excluded; item 1 is recently recommended and
favorited, so it is not. -/
theorem c1_get_excluded_item_ids_witness :
    (2 : ℕ) ∈ get_excluded_item_ids {1, 2} {2} [1, 2, 3] none
    ∧ (1 : ℕ) ∉ get_excluded_item_ids {1, 2} {2} [1, 2, 3] none :=
  ⟨(c1_get_excluded_item_ids_spec {1, 2} {2} [1, 2, 3] none 2).1 (by decide),
   (c1_get_excluded_item_ids_spec {1, 2} {2} [1, 2, 3] none 1).2
     (by decide) (by decide) (by decide) (by decide)⟩

/-- Counterexample for C1 as stated: with 501 favorites (most recent
first), the source's `limit=500` fetch misses the oldest favorite, so an
item that is favorited, recently recommended, not dismissed and not in
the caller excludes is nevertheless excluded. -/
theorem c1_get_excluded_item_ids_counterexample :
    (500 : ℕ) ∈ List.range 501
    ∧ (500 : ℕ) ∉ (∅ : Finset ℕ)
    ∧ (500 : ℕ) ∈ get_excluded_item_ids {500} (∅ : Finset ℕ) (List.range 501) none := by
  refine ⟨by simp, by simp, ?_⟩
  unfold get_excluded_item_ids
  rw [if_neg (by simp)]
  simp only [Finset.mem_union, Finset.mem_sdiff, List.mem_toFinset, Option.getD_none]
  refine Or.inl (Or.inl ⟨by simp, ?_⟩)
  rw [List.take_range]
  simp

end AntiRepeat

section EpsilonGreedy

lemma eps_select_cons (s0 : ScoredCandidate) (rest : List ScoredCandidate)
    (epsilon : ℚ) (rng : PyRandom) :
    epsilon_greedy_select (s0 :: rest) epsilon rng =
      if rng.u < epsilon then
        some (((s0 :: rest).take (min 20 (s0 :: rest).length)).getD
          (rng.randbelow ((s0 :: rest).take (min 20 (s0 :: rest).length)).length) s0)
      else some s0 := rfl

/-- C2: on a non-empty score-sorted candidate list, with `epsilon = 0.0`
the selector returns the single top-scored candidate for every realized
generator; on the explore branch (taken exactly when the realized
`random()` draw is below `epsilon`, i.e. with probability `epsilon` for a
uniform draw) it returns the element of the top `min(20, n)` candidates
indexed by the uniform `_randbelow` draw — so it chooses uniformly from
the top `min(20, n)`, and every one of them is reachable. -/
theorem c2_epsilon_greedy_select_spec (s0 : ScoredCandidate)
    (rest : List ScoredCandidate) (epsilon : ℚ)
    (hsorted : List.Sorted (fun a b => b.score ≤ a.score) (s0 :: rest)) :
    (∀ rng : PyRandom, epsilon = 0 →
      epsilon_greedy_select (s0 :: rest) epsilon rng = some s0
      ∧ ∀ c ∈ s0 :: rest, c.score ≤ s0.score)
    ∧ (∀ rng : PyRandom, rng.u < epsilon →
      epsilon_greedy_select (s0 :: rest) epsilon rng =
        some (((s0 :: rest).take (min 20 (s0 :: rest).length)).getD
          (rng.randbelow (min 20 (s0 :: rest).length)) s0)
      ∧ ∃ c ∈ (s0 :: rest).take (min 20 (s0 :: rest).length),
          epsilon_greedy_select (s0 :: rest) epsilon rng = some c)
    ∧ (∀ i, i < min 20 (s0 :: rest).length → 0 < epsilon →
      ∃ rng : PyRandom, rng.u < epsilon ∧
        epsilon_greedy_select (s0 :: rest) epsilon rng =
          some (((s0 :: rest).take (min 20 (s0 :: rest).length)).getD i s0)) := by
  have hlen : ((s0 :: rest).take (min 20 (s0 :: rest).length)).length =
      min 20 (s0 :: rest).length := by
    rw [List.length_take]
    omega
  have hkpos : 0 < min 20 (s0 :: rest).length := by
    simp only [List.length_cons]
    omega
  refine ⟨fun rng h0 => ?_, fun rng hu => ?_, fun i hi hε => ?_⟩
  · subst h0
    refine ⟨?_, ?_⟩
    · rw [eps_select_cons, if_neg (not_lt.2 rng.u_nonneg)]
    · intro c hc
      rcases List.mem_cons.1 hc with rfl | hmem
      · exact le_refl _
      · exact List.rel_of_sorted_cons hsorted c hmem
  · have hidx : rng.randbelow (min 20 (s0 :: rest).length) <
        ((s0 :: rest).take (min 20 (s0 :: rest).length)).length := by
      rw [hlen]
      exact rng.randbelow_lt _ hkpos
    have hsel : epsilon_greedy_select (s0 :: rest) epsilon rng =
        some (((s0 :: rest).take (min 20 (s0 :: rest).length)).getD
          (rng.randbelow (min 20 (s0 :: rest).length)) s0) := by
      rw [eps_select_cons, if_pos hu, hlen]
    refine ⟨hsel, ((s0 :: rest).take (min 20 (s0 :: rest).length)).getD
      (rng.randbelow (min 20 (s0 :: rest).length)) s0, ?_, hsel⟩
    rw [List.getD_eq_getElem _ _ hidx]
    exact List.getElem_mem _
  · refine ⟨⟨0, le_refl 0, by norm_num, fun n => if i < n then i else 0, ?_⟩, hε, ?_⟩
    · intro n hn
      dsimp only
      split_ifs with h
      · exact h
      · exact hn
    · rw [eps_select_cons]
      dsimp only
      rw [if_pos hε, hlen]
      rw [if_pos hi]

end EpsilonGreedy

section EpsilonGreedyWitness



/-- Witness for C2: with `epsilon = 0` and the concrete realized
generator `rngZero`, the selector returns the top-scored candidate. -/
theorem c2_epsilon_greedy_select_witness :
    epsilon_greedy_select [candA, candB] 0 rngZero = some candA
    ∧ candB.score ≤ candA.score := by
  have h := (c2_epsilon_greedy_select_spec candA [candB] 0
    (by norm_num [List.sorted_cons, candA, candB])).1 rngZero rfl
  exact ⟨h.1, h.2 candB (by simp)⟩

end EpsilonGreedyWitness

section UpdateWeights

lemma rewards_lookup_nonzero (action : String) (reward : Int)
    (h : REWARDS.lookup action = some reward) : reward ≠ 0 := by
  simp only [REWARDS, List.lookup] at h
  repeat' split at h
  all_goals first
    | (injection h with h'; omega)
    | exact Option.noConfusion h

/-- C3 (amended): `update_weights` applies the secondary `+1` correction
exactly when a recognized correcting reason is supplied, for EVERY
recognized action (the source never tests `action == "miss"`): reason
`"tooslow"` adds `+1` on the same-state, opposite-pace, same-format key;
`"tooheavy"` adds `+1` on the opposite-state key unless the state is
escape; `"notvibe"` or no reason leaves only the base delta. -/
theorem c3_update_weights_spec (g : String → Option StoredContext)
    (rec_id : String) (S P F : String) (tb : Option String)
    (action : String) (reward : Int)
    (hg : g rec_id = some ⟨some S, some P, some F, tb⟩)
    (hS : S ∈ ["light", "heavy", "escape"])
    (hP : P ∈ ["slow", "fast"])
    (hF : F ∈ ["movie", "series"])
    (hr : REWARDS.lookup action = some reward) :
    (update_weights g rec_id action none =
      [(context_key ⟨some S, some P, some F⟩, reward)])
    ∧ (update_weights g rec_id action (some "notvibe") =
      [(context_key ⟨some S, some P, some F⟩, reward)])
    ∧ (update_weights g rec_id action (some "tooslow") =
      [(context_key ⟨some S, some P, some F⟩, reward),
       (context_key ⟨some S, some (get_opposite_pace P), some F⟩, 1)])
    ∧ (S ≠ "escape" → update_weights g rec_id action (some "tooheavy") =
      [(context_key ⟨some S, some P, some F⟩, reward),
       (context_key ⟨some (get_opposite_state S), some P, some F⟩, 1)])
    ∧ (S = "escape" → update_weights g rec_id action (some "tooheavy") =
      [(context_key ⟨some S, some P, some F⟩, reward)]) := by
  have h0 : reward ≠ 0 := rewards_lookup_nonzero action reward hr
  fin_cases hS <;> fin_cases hP <;> fin_cases hF <;>
    refine ⟨?_, ?_, ?_, fun hne => ?_, fun heq => ?_⟩ <;>
    first
      | exact absurd heq (by decide)
      | exact absurd rfl hne
      | (simp only [update_weights, hg, hr]
         simp +decide [h0, context_key, get_opposite_pace, get_opposite_state,
           upsert, lookupD, List.lookup])

end UpdateWeights

section UpdateWeightsConcrete



/-- Counterexample for C3 as stated: the action `"hit"` (not `"miss"`)
with reason `"tooslow"` still receives the secondary `+1` correction on
the opposite-pace key — the source applies the correction for any
recognized reason without testing the action. -/
theorem c3_update_weights_counterexample :
    update_weights get_rec_demo "r1" "hit" (some "tooslow") =
      [("state:heavy|pace:slow|format:movie", 2),
       ("state:heavy|pace:fast|format:movie", 1)] := by
  decide

/-- Witness for C3 (amended), which is also the spec's scenario: a
`"miss"` with reason `"tooslow"` on `state:heavy|pace:slow|format:movie`
yields base delta `-2` on that key plus `+1` on
`state:heavy|pace:fast|format:movie`. -/
theorem c3_update_weights_witness :
    update_weights get_rec_demo "r1" "miss" (some "tooslow") =
      [("state:heavy|pace:slow|format:movie", -2),
       ("state:heavy|pace:fast|format:movie", 1)] := by
  have h := (c3_update_weights_spec get_rec_demo "r1" "heavy" "slow" "movie" none
    "miss" (-2) (by decide) (by decide) (by decide) (by decide) (by decide)).2.2.1
  rw [h]
  decide

end UpdateWeightsConcrete

section ParseHint



lemma parse_hint_some (h : String) (hne : ¬ pyStrip h.data = []) :
    parse_hint (some h) =
      ⟨(genreFold (rowMatches (splitWs (pyStrip (lw h.data))) (pyStrip (lw h.data)))
          HINT_GENRE_MAP
          (if (splitWs (pyStrip (lw h.data))).any (fun w => series_words.contains w) then
            { format := some "series" }
          else if (splitWs (pyStrip (lw h.data))).any (fun w => movie_words.contains w) then
            { format := some "movie" }
          else {}, ∅)).1,
       (genreFold (rowMatches (splitWs (pyStrip (lw h.data))) (pyStrip (lw h.data)))
          HINT_GENRE_MAP
          (if (splitWs (pyStrip (lw h.data))).any (fun w => series_words.contains w) then
            { format := some "series" }
          else if (splitWs (pyStrip (lw h.data))).any (fun w => movie_words.contains w) then
            { format := some "movie" }
          else {}, ∅)).2,
       (splitWs (pyStrip (lw h.data))).filter
         (fun w => 3 ≤ w.length ∧ ¬ hint_stop_words.contains w),
       []⟩ := by
  unfold parse_hint genreFold
  dsimp only
  rw [if_neg hne]

lemma hint_rows_format_none : ∀ row ∈ HINT_GENRE_MAP, row.ov.format = none := by
  decide

lemma genreFold_format (p : GenreRow → Bool) (rows : List GenreRow)
    (a : Answers) (t : Finset String)
    (hrows : ∀ row ∈ rows, row.ov.format = none) :
    (genreFold p rows (a, t)).1.format = a.format := by
  induction rows generalizing a t with
  | nil => rfl
  | cons r rs ih =>
    unfold genreFold
    rw [List.foldl_cons]
    by_cases hp : p r
    · rw [if_pos hp]
      have := ih (dictUpdate a r.ov) (t ∪ r.tones)
        (fun row hr => hrows row (List.mem_cons_of_mem r hr))
      unfold genreFold at this
      rw [this]
      simp [dictUpdate, hrows r (List.mem_cons_self r rs)]
    · rw [if_neg hp]
      have := ih a t (fun row hr => hrows row (List.mem_cons_of_mem r hr))
      unfold genreFold at this
      rw [this]

/-- C10: when the hint's tokens contain both a series keyword and a movie
keyword, `parse_hint` sets the format override to `"series"` — the series
check takes precedence, and the movie override applies only when no
series keyword is present.  (No genre row touches the format, so the
format set by that check survives the genre fold.) -/
theorem c10_parse_hint_series_precedence (h : String)
    (hne : ¬ pyStrip h.data = []) :
    ((splitWs (pyStrip (lw h.data))).any (fun w => series_words.contains w) = true →
      (parse_hint (some h)).overrides.format = some "series")
    ∧ ((splitWs (pyStrip (lw h.data))).any (fun w => series_words.contains w) = false →
       (splitWs (pyStrip (lw h.data))).any (fun w => movie_words.contains w) = true →
      (parse_hint (some h)).overrides.format = some "movie") := by
  rw [parse_hint_some h hne]
  constructor
  · intro hs
    dsimp only
    rw [genreFold_format _ _ _ _ hint_rows_format_none]
    rw [if_pos hs]
  · intro hs hm
    dsimp only
    rw [genreFold_format _ _ _ _ hint_rows_format_none]
    rw [if_neg (by rw [hs]; simp), if_pos hm]

/-- Witness for C10: the hint "серіал фільм" contains both a series and a
movie keyword; the parsed format override is `"series"`. -/
theorem c10_parse_hint_series_witness :
    (parse_hint (some "серіал фільм")).overrides.format = some "series" :=
  (c10_parse_hint_series_precedence "серіал фільм" (by decide)).1 (by decide)

end ParseHint

section ParseHintAllRows



lemma genreFold_tones (p : GenreRow → Bool) (rows : List GenreRow)
    (a : Answers) (t : Finset String) :
    (genreFold p rows (a, t)).2 = t ∪ unionTones p rows := by
  induction rows generalizing a t with
  | nil => simp [genreFold, unionTones]
  | cons r rs ih =>
    unfold genreFold unionTones
    rw [List.foldl_cons]
    by_cases hp : p r
    · rw [if_pos hp, if_pos hp]
      have := ih (dictUpdate a r.ov) (t ∪ r.tones)
      unfold genreFold at this
      rw [this, Finset.union_assoc]
    · rw [if_neg hp, if_neg hp]
      have := ih a t
      unfold genreFold at this
      rw [this]

lemma genreFold_state (p : GenreRow → Bool) (rows : List GenreRow)
    (a : Answers) (t : Finset String) :
    (genreFold p rows (a, t)).1.state =
      lastSome a.state ((rows.filter p).map (fun r => r.ov.state)) := by
  induction rows generalizing a t with
  | nil => rfl
  | cons r rs ih =>
    unfold genreFold
    rw [List.foldl_cons, List.filter_cons]
    by_cases hp : p r
    · rw [if_pos hp, if_pos hp]
      have := ih (dictUpdate a r.ov) (t ∪ r.tones)
      unfold genreFold at this
      rw [this]
      rfl
    · rw [if_neg hp, if_neg hp]
      have := ih a t
      unfold genreFold at this
      rw [this]

lemma genreFold_pace (p : GenreRow → Bool) (rows : List GenreRow)
    (a : Answers) (t : Finset String) :
    (genreFold p rows (a, t)).1.pace =
      lastSome a.pace ((rows.filter p).map (fun r => r.ov.pace)) := by
  induction rows generalizing a t with
  | nil => rfl
  | cons r rs ih =>
    unfold genreFold
    rw [List.foldl_cons, List.filter_cons]
    by_cases hp : p r
    · rw [if_pos hp, if_pos hp]
      have := ih (dictUpdate a r.ov) (t ∪ r.tones)
      unfold genreFold at this
      rw [this]
      rfl
    · rw [if_neg hp, if_neg hp]
      have := ih a t
      unfold genreFold at this
      rw [this]

lemma mem_unionTones (p : GenreRow → Bool) (rows : List GenreRow)
    (row : GenreRow) (hmem : row ∈ rows) (hp : p row = true) :
    row.tones ⊆ unionTones p rows := by
  induction rows with
  | nil => cases hmem
  | cons r rs ih =>
    unfold unionTones
    rcases List.mem_cons.1 hmem with rfl | hmem'
    · rw [if_pos hp]
      exact Finset.subset_union_left
    · by_cases hpr : p r
      · rw [if_pos hpr]
        exact (ih hmem').trans Finset.subset_union_right
      · rw [if_neg hpr]
        exact ih hmem'

/-- C9: `parse_hint` applies every matching row of the genre table, not
only the first: the tone keywords are the union of all matching rows'
tone sets (each matching row's tones are included), and each override
field is the last-wins combination (`dict.update` in table order) of all
matching rows' entries for that field. -/
theorem c9_parse_hint_all_matches (h : String) (hne : ¬ pyStrip h.data = []) :
    (parse_hint (some h)).tone_keywords =
      unionTones (rowMatches (splitWs (pyStrip (lw h.data))) (pyStrip (lw h.data)))
        HINT_GENRE_MAP
    ∧ (∀ row ∈ HINT_GENRE_MAP,
        rowMatches (splitWs (pyStrip (lw h.data))) (pyStrip (lw h.data)) row = true →
        row.tones ⊆ (parse_hint (some h)).tone_keywords)
    ∧ (parse_hint (some h)).overrides.state =
      lastSome none
        ((HINT_GENRE_MAP.filter
          (rowMatches (splitWs (pyStrip (lw h.data))) (pyStrip (lw h.data)))).map
          (fun r => r.ov.state))
    ∧ (parse_hint (some h)).overrides.pace =
      lastSome none
        ((HINT_GENRE_MAP.filter
          (rowMatches (splitWs (pyStrip (lw h.data))) (pyStrip (lw h.data)))).map
          (fun r => r.ov.pace)) := by
  rw [parse_hint_some h hne]
  have hstate : (if (splitWs (pyStrip (lw h.data))).any (fun w => series_words.contains w) then
      ({ format := some "series" } : Answers)
    else if (splitWs (pyStrip (lw h.data))).any (fun w => movie_words.contains w) then
      { format := some "movie" }
    else {}).state = none := by
    split_ifs <;> rfl
  have hpace : (if (splitWs (pyStrip (lw h.data))).any (fun w => series_words.contains w) then
      ({ format := some "series" } : Answers)
    else if (splitWs (pyStrip (lw h.data))).any (fun w => movie_words.contains w) then
      { format := some "movie" }
    else {}).pace = none := by
    split_ifs <;> rfl
  refine ⟨?_, ?_, ?_, ?_⟩
  · dsimp only
    rw [genreFold_tones, Finset.empty_union]
  · intro row hmem hpm
    dsimp only
    rw [genreFold_tones, Finset.empty_union]
    exact mem_unionTones _ _ row hmem hpm
  · dsimp only
    rw [genreFold_state, hstate]
  · dsimp only
    rw [genreFold_pace, hpace]

/-- Witness for C9: the hint "комедія драма" matches both the comedy row
(state light, pace fast, tones funny/warm) and the drama row (state
heavy, pace slow, tones melancholy/emotional); both rows contribute —
the tones are the union, and the later row's state/pace win. -/
theorem c9_parse_hint_witness :
    (parse_hint (some "комедія драма")).tone_keywords =
      unionTones
        (rowMatches (splitWs (pyStrip (lw ("комедія драма" : String).data)))
          (pyStrip (lw ("комедія драма" : String).data)))
        HINT_GENRE_MAP
    ∧ (parse_hint (some "комедія драма")).overrides.state = some "heavy"
    ∧ (parse_hint (some "комедія драма")).overrides.pace = some "slow" := by
  have hthm := c9_parse_hint_all_matches "комедія драма" (by decide)
  refine ⟨hthm.1, ?_, ?_⟩
  · rw [hthm.2.2.1]
    decide
  · rw [hthm.2.2.2]
    decide

end ParseHintAllRows

section Sanitizer

lemma lw_cons (c : Char) (l : List Char) : lw (c :: l) = lowerChar c :: lw l := rfl

lemma replSpoiler_nil (lk : List Char) (skip : Nat) : replSpoiler lk skip [] = [] := by
  cases skip <;> rfl

lemma replSpoiler_succ (lk : List Char) (m : Nat) (c : Char) (rest : List Char) :
    replSpoiler lk (m + 1) (c :: rest) = replSpoiler lk m rest := rfl

lemma replSpoiler_zero (lk : List Char) (c : Char) (rest : List Char) :
    replSpoiler lk 0 (c :: rest) =
      if lk ≠ [] ∧ lk.isPrefixOf (lw (c :: rest)) then
        '.' :: '.' :: '.' :: replSpoiler lk (lk.length - 1) rest
      else c :: replSpoiler lk 0 rest := rfl

lemma infix_of_infix_dot_cons (u t : List Char) (hd : '.' ∉ u)
    (h : u <:+: '.' :: t) : u <:+: t := by
  rcases List.infix_cons_iff.1 h with hp | hi
  · match u, hd, hp with
    | [], _, _ => exact List.nil_infix
    | u0 :: ut, hd, hp =>
      rcases List.cons_prefix_cons.1 hp with ⟨rfl, _⟩
      exact absurd (List.mem_cons_self _ _) hd
  · exact hi

lemma repl_prefix_transfer (lk : List Char) (s : List Char) :
    ∀ (u : List Char), '.' ∉ u →
      u <+: lw (replSpoiler lk 0 s) → u <+: lw s := by
  induction s with
  | nil =>
    intro u _ h
    rw [replSpoiler_nil] at h
    exact h
  | cons c rest ih =>
    intro u hd h
    by_cases hcond : lk ≠ [] ∧ lk.isPrefixOf (lw (c :: rest))
    · rw [replSpoiler_zero, if_pos hcond] at h
      match u, hd, h with
      | [], _, _ => exact List.nil_prefix
      | u0 :: ut, hd, h =>
        rcases List.cons_prefix_cons.1 h with ⟨h0, _⟩
        have : u0 = '.' := h0
        exact absurd (this ▸ List.mem_cons_self u0 ut) hd
    · rw [replSpoiler_zero, if_neg hcond] at h
      match u, hd, h with
      | [], _, _ => exact List.nil_prefix
      | u0 :: ut, hd, h =>
        rw [lw_cons] at h
        rcases List.cons_prefix_cons.1 h with ⟨h0, hp⟩
        have hut := ih ut (fun hm => hd (List.mem_cons_of_mem _ hm)) hp
        rw [lw_cons]
        exact List.cons_prefix_cons.2 ⟨h0, hut⟩

lemma repl_infix_transfer (lk : List Char) (s : List Char) :
    ∀ (skip : Nat) (u : List Char), '.' ∉ u →
      u <:+: lw (replSpoiler lk skip s) → u <:+: lw s := by
  induction s with
  | nil =>
    intro skip u _ h
    rw [replSpoiler_nil] at h
    exact h
  | cons c rest ih =>
    intro skip u hd h
    match skip with
    | m + 1 =>
      rw [replSpoiler_succ] at h
      exact List.infix_cons (ih m u hd h)
    | 0 =>
      by_cases hcond : lk ≠ [] ∧ lk.isPrefixOf (lw (c :: rest))
      · rw [replSpoiler_zero, if_pos hcond] at h
        have h1 := infix_of_infix_dot_cons _ _ hd h
        have h2 := infix_of_infix_dot_cons _ _ hd h1
        have h3 := infix_of_infix_dot_cons _ _ hd h2
        exact List.infix_cons (ih (lk.length - 1) u hd h3)
      · rw [replSpoiler_zero, if_neg hcond, lw_cons] at h
        rcases List.infix_cons_iff.1 h with hp | hi
        · match u, hd, hp with
          | [], _, _ => exact List.nil_infix
          | u0 :: ut, hd, hp =>
            rcases List.cons_prefix_cons.1 hp with ⟨h0, hput⟩
            have hut := repl_prefix_transfer lk rest ut
              (fun hm => hd (List.mem_cons_of_mem _ hm)) hput
            rw [lw_cons]
            exact (List.cons_prefix_cons.2 ⟨h0, hut⟩).isInfix
        · exact List.infix_cons (ih 0 u hd hi)

lemma repl_self_remove (lk : List Char) (hlk : lk ≠ []) (hd : '.' ∉ lk)
    (s : List Char) : ∀ skip : Nat, ¬ lk <:+: lw (replSpoiler lk skip s) := by
  induction s with
  | nil =>
    intro skip h
    rw [replSpoiler_nil] at h
    exact hlk (List.infix_nil.1 h)
  | cons c rest ih =>
    intro skip h
    match skip with
    | m + 1 =>
      rw [replSpoiler_succ] at h
      exact ih m h
    | 0 =>
      by_cases hcond : lk ≠ [] ∧ lk.isPrefixOf (lw (c :: rest))
      · rw [replSpoiler_zero, if_pos hcond] at h
        exact ih (lk.length - 1)
          (infix_of_infix_dot_cons _ _ hd
            (infix_of_infix_dot_cons _ _ hd (infix_of_infix_dot_cons _ _ hd h)))
      · rw [replSpoiler_zero, if_neg hcond, lw_cons] at h
        rcases List.infix_cons_iff.1 h with hp | hi
        · match lk, hlk, hd, hcond, hp, ih with
          | l0 :: lt, hlk, hd, hcond, hp, ih =>
            rcases List.cons_prefix_cons.1 hp with ⟨h0, hplt⟩
            have hlt := repl_prefix_transfer (l0 :: lt) rest lt
              (fun hm => hd (List.mem_cons_of_mem _ hm)) hplt
            refine hcond ⟨by simp, (List.isPrefixOf_iff_prefix).2 ?_⟩
            rw [lw_cons]
            exact List.cons_prefix_cons.2 ⟨h0, hlt⟩
        · exact ih 0 hi

end Sanitizer

section SanitizerFold

lemma foldl_repl_preserves (keys : List String) (u : List Char) (hu : '.' ∉ u) :
    ∀ s : List Char, ¬ u <:+: lw s →
      ¬ u <:+: lw (keys.foldl (fun acc k => replSpoiler (lw k.data) 0 acc) s) := by
  induction keys with
  | nil => intro s h; exact h
  | cons k ks ih =>
    intro s h
    rw [List.foldl_cons]
    exact ih _ (fun hc => h (repl_infix_transfer (lw k.data) s 0 u hu hc))

lemma foldl_repl_free (keys : List String) (k : String) (hk : k ∈ keys)
    (hne : k.data ≠ []) (hdot : '.' ∉ k.data) (hlow : lw k.data = k.data) :
    ∀ s : List Char,
      ¬ k.data <:+: lw (keys.foldl (fun acc kw => replSpoiler (lw kw.data) 0 acc) s) := by
  induction keys with
  | nil => cases hk
  | cons k0 ks ih =>
    intro s
    rw [List.foldl_cons]
    rcases List.mem_cons.1 hk with rfl | hmem
    · apply foldl_repl_preserves ks k.data hdot
      rw [show lw k.data = k.data from hlow]
      exact repl_self_remove k.data hne hdot s 0
    · exact ih hmem _

lemma spoiler_keywords_ok :
    ∀ k ∈ SPOILER_KEYWORDS, k.data ≠ [] ∧ '.' ∉ k.data ∧ lw k.data = k.data := by
  decide

lemma sanitizeCore_free (s : List Char) :
    ∀ k ∈ SPOILER_KEYWORDS, ¬ k.data <:+: lw (sanitizeCore s) := by
  intro k hk
  obtain ⟨hne, hdot, hlow⟩ := spoiler_keywords_ok k hk
  exact foldl_repl_free SPOILER_KEYWORDS k hk hne hdot hlow s

lemma infix_of_append_dots (u t : List Char) (hd : '.' ∉ u)
    (h : u <:+: t ++ ['.', '.', '.']) : u <:+: t := by
  rw [← List.reverse_infix] at h ⊢
  rw [List.reverse_append] at h
  have hdr : '.' ∉ u.reverse := fun hm => hd (List.mem_reverse.1 hm)
  exact infix_of_infix_dot_cons _ _ hdr
    (infix_of_infix_dot_cons _ _ hdr (infix_of_infix_dot_cons _ _ hdr h))

lemma sanitize_text_spoiler_free (s : String) (ml : Nat) :
    ¬ contains_spoiler (sanitize_text s ml) := by
  rintro ⟨k, hk, hinf⟩
  have hfree := sanitizeCore_free s.data k hk
  obtain ⟨hne, hdot, hlow⟩ := spoiler_keywords_ok k hk
  unfold sanitize_text at hinf
  dsimp only at hinf
  generalize hR : sanitizeCore s.data = R at hinf hfree
  split_ifs at hinf with hlen
  · have hmk : (String.mk (R.take (ml - 3) ++ ['.', '.', '.'])).data =
        R.take (ml - 3) ++ ['.', '.', '.'] := rfl
    rw [hmk] at hinf
    have hdots : lw (R.take (ml - 3) ++ ['.', '.', '.']) =
        lw (R.take (ml - 3)) ++ ['.', '.', '.'] := by
      have hsplit : lw (R.take (ml - 3) ++ ['.', '.', '.']) =
          lw (R.take (ml - 3)) ++ lw ['.', '.', '.'] := List.map_append _ _ _
      rw [hsplit]
      rfl
    rw [hdots] at hinf
    have h1 := infix_of_append_dots _ _ hdot hinf
    have hmt : lw (R.take (ml - 3)) = (lw R).take (ml - 3) := List.map_take _ _ _
    rw [hmt] at h1
    exact hfree (h1.trans (List.take_prefix _ _).isInfix)
  · exact hfree hinf

lemma sanitize_text_length (s : String) :
    (sanitize_text s MAX_RATIONALE_LENGTH).length ≤ 320 := by
  unfold sanitize_text MAX_RATIONALE_LENGTH
  dsimp only
  split_ifs with hlen
  · show ((sanitizeCore s.data).take (320 - 3) ++ ['.', '.', '.']).length ≤ 320
    rw [List.length_append, List.length_take]
    simp only [List.length_cons, List.length_nil]
    omega
  · show (sanitizeCore s.data).length ≤ 320
    omega

end SanitizerFold

section SpoilerFreedom

lemma select_by_hash_cases (options : List String) (id salt : String) :
    select_by_hash options id salt = "" ∨ select_by_hash options id salt ∈ options := by
  unfold select_by_hash
  split_ifs with h
  · exact Or.inl rfl
  · right
    have hlen : 0 < options.length := List.length_pos.2 h
    have hidx : hash_seed id salt % options.length < options.length :=
      Nat.mod_lt _ hlen
    rw [List.getD_eq_getElem _ _ hidx]
    exact List.getElem_mem _

lemma no_spoiler_select (options : List String)
    (h : ∀ x ∈ options, ¬ contains_spoiler x) (id salt : String) :
    ¬ contains_spoiler (select_by_hash options id salt) := by
  rcases select_by_hash_cases options id salt with he | hm
  · rw [he]
    decide
  · exact h _ hm

set_option maxRecDepth 8000 in
set_option maxHeartbeats 2000000 in
lemma when_to_watch_free (rec_id : String) (answers : Answers) :
    ¬ contains_spoiler (generate_when_to_watch rec_id answers) := by
  unfold generate_when_to_watch
  dsimp only
  set fn := (WHEN_TO_WATCH (answers.state.getD "escape")).getD escape_when with hfn
  have hfn_ok : ∀ p l, fn p = some l → ∀ x ∈ l, ¬ contains_spoiler x := by
    intro p l hl x hx
    rw [hfn] at hl
    unfold WHEN_TO_WATCH at hl
    split_ifs at hl <;>
      simp only [Option.getD_some, Option.getD_none, light_when, heavy_when,
        escape_when] at hl <;>
      split_ifs at hl <;>
      first
        | exact Option.noConfusion hl
        | (injection hl with hl'
           subst hl'
           revert x
           decide)
  split_ifs with hempty
  · decide
  · apply no_spoiler_select
    intro x hx
    rcases hfc : fn (answers.pace.getD "slow") with _ | l
    · rw [hfc, Option.getD_none] at hx
      rcases hfs : fn "slow" with _ | l'
      · rw [hfs, Option.getD_none] at hx
        cases hx
      · rw [hfs, Option.getD_some] at hx
        exact hfn_ok "slow" l' hfs x hx
    · rw [hfc, Option.getD_some] at hx
      exact hfn_ok _ l hfc x hx

/-- C8: every rationale is at most 320 characters and spoiler-free, and
every when-to-watch string is spoiler-free (case-insensitively, for the
fixed spoiler keyword list). -/
theorem c8_generators_spoiler_free (rec_id : String) (answers : Answers)
    (item_tags : Option TagsDict) :
    (generate_rationale rec_id answers item_tags).length ≤ 320
    ∧ ¬ contains_spoiler (generate_rationale rec_id answers item_tags)
    ∧ ¬ contains_spoiler (generate_when_to_watch rec_id answers) := by
  refine ⟨?_, ?_, when_to_watch_free rec_id answers⟩
  · unfold generate_rationale
    dsimp only
    exact sanitize_text_length _
  · unfold generate_rationale
    dsimp only
    exact sanitize_text_spoiler_free _ _

end SpoilerFreedom
